import Mathlib

/-!
Verification of the MyTest execution engine (mytest.h) and the
shared-memory SlotArray (test/multi/shared_trace.h).

The development shallowly embeds the relevant C++ code:

* `RunTestWithHooks` — the per-test hook/exception pipeline of
  `MyTest::RunAllTests` (the `RunTestWithHooks` lambda).
* `classifyChild` — the parent-side exit-status classification of the
  `RunTestInProcess` lambda.
* `runAllTests` — the group/test scheduling loop of `MyTest::RunAllTests`,
  abstracted over the outcome each `RunTest` invocation produces.
* `ReserveSlotInternal` / `Collect` — `shared_memory::SlotArray`.

Test and hook bodies are arbitrary C++ code; they are modelled by the
observable effects the engine reacts to: which exception (if any) escapes
the body, and which singleton flags (`condition_passed_`,
`expect_failure_`) the body sets before returning or throwing.
-/

namespace MyTestSpec

/-- The exception (if any) escaping a test or hook body, mirroring the
catch clauses of the `RunTestWithHooks` lambda in `MyTest::RunAllTests`.
The carried string is the exception message (`what()`), including the
prefix that the corresponding exception class constructor prepends. -/
inductive ExecEvent where
  | ret
  | skipExc (msg : String)
  | assertExc (msg : String)
  | timeoutExc (msg : String)
  | stdExc (msg : String)
  | unknownExc
deriving DecidableEq, Repr

/-- Observable behaviour of one body (a test body wrapped by the TEST
machinery, or a BeforeEach hook): the event with which it finishes, and
whether, before finishing, it called `MarkConditionPassed(false)` (a
non-fatal EXPECT failure) or `MarkExpectFailure(true)`
(`TEST_EXPECT_FAILURE`). -/
structure BodyBehavior where
  event : ExecEvent
  marksCondFailed : Bool
  marksExpectFailure : Bool
deriving DecidableEq, Repr

/-- The `(failure, skipped, message)` tuple returned by the RunTest
lambdas. -/
structure RunOutcome where
  failure : Bool
  skipped : Bool
  message : String
deriving DecidableEq, Repr

/-- Ghost trace of hook/body invocations during one `RunTestWithHooks`
call, used to state the hook-ordering claims. -/
structure HookTrace where
  beforeEachRuns : Nat
  afterEachRuns : Nat
  bodyRan : Bool
deriving DecidableEq, Repr

/-- The try-block and catch clauses of `RunTestWithHooks` (mytest.h
lines 350-389), without the trailing expected-failure inversion.

Sequencing follows the C++ control flow exactly:
`condition_passed_ = true; expect_failure_ = false;` then inside the try
block an `OnScopeLeave` guard is armed, BeforeEach runs (if registered
for a non-empty group), then the body.  On leaving the try block —
normally or by exception unwinding — the guard runs AfterEach (if
registered) and turns `!condition_passed_` into `failure = true`; the
catch clauses then classify the escaped exception.  Returns the
pre-inversion outcome, the final `expect_failure_` flag, and the trace. -/
def classifyRun (hasBE hasAE : Bool) (be body : BodyBehavior) :
    RunOutcome × Bool × HookTrace :=
  let step :=
    if hasBE then
      match be.event with
      | .ret =>
          (body.event, !be.marksCondFailed && !body.marksCondFailed,
           be.marksExpectFailure || body.marksExpectFailure, true)
      | e => (e, !be.marksCondFailed, be.marksExpectFailure, false)
    else
      (body.event, !body.marksCondFailed, body.marksExpectFailure, true)
  match step with
  | (ev, condPassed, expectFlag, bodyRan) =>
    let scopeFailure := !condPassed
    let out : RunOutcome :=
      match ev with
      | .ret => ⟨scopeFailure, false, ""⟩
      | .skipExc m => ⟨scopeFailure, true, m⟩
      | .assertExc m => ⟨true, false, m⟩
      | .timeoutExc m => ⟨true, false, m⟩
      | .stdExc m => ⟨true, false, m⟩
      | .unknownExc => ⟨true, false, "Unknown exception"⟩
    (out, expectFlag,
     ⟨if hasBE then 1 else 0, if hasAE then 1 else 0, bodyRan⟩)

/-- The tail of `RunTestWithHooks` (mytest.h lines 391-402): the
expected-failure inversion followed by the default-message fills. -/
def finalizeOutcome (o : RunOutcome) (expectFlag : Bool) : RunOutcome :=
  let failure := if expectFlag then !o.failure else o.failure
  let message :=
    if failure && o.message.isEmpty then "See console output."
    else if o.skipped && o.message.isEmpty then "Skipped."
    else o.message
  ⟨failure, o.skipped, message⟩

/-- The complete `RunTestWithHooks` lambda: classification followed by
the expected-failure inversion and message defaults. -/
def RunTestWithHooks (hasBE hasAE : Bool) (be body : BodyBehavior) :
    RunOutcome × HookTrace :=
  match classifyRun hasBE hasAE be body with
  | (o, expectFlag, tr) => (finalizeOutcome o expectFlag, tr)

/-! ### The TEST_INTERNAL wrapper: deadline selection and timeout -/

/-- The default argument of the wrapper function generated by
`TEST_INTERNAL` is `timeout_ms = MyTest::Instance().timeout()`: a
registration-time timeout argument overrides the configured default. -/
def effectiveDeadline (overrideMs : Option Int) (defaultMs : Int) : Int :=
  overrideMs.getD defaultMs

/-- Whether `future.wait_for(std::chrono::milliseconds(timeout_ms))`
returns `std::future_status::timeout` in the `TEST_INTERNAL` wrapper:
`completesInMs` is the wall-clock time at which the body signals
completion (`none` if it never does). -/
def timesOut (completesInMs : Option Int) (deadlineMs : Int) : Bool :=
  match completesInMs with
  | none => true
  | some t => decide (deadlineMs < t)

/-- The class `MyTest::TestTimeoutException` prepends this prefix to its message;
`TEST_INTERNAL` throws it with the full `"group:name"` identifier. -/
def timeoutExcWhat (fullName : String) : String := " Timed out : " ++ fullName

/-- The event with which the `TEST_INTERNAL`-generated wrapper finishes:
if the deadline elapses before the body signals completion, a
`TestTimeoutException` escapes; otherwise `future.get()` rethrows
whatever the body threw (or returns normally). -/
def runWrappedTest (overrideMs : Option Int) (defaultMs : Int)
    (completesInMs : Option Int) (bodyEvent : ExecEvent)
    (fullName : String) : ExecEvent :=
  if timesOut completesInMs (effectiveDeadline overrideMs defaultMs) then
    .timeoutExc (timeoutExcWhat fullName)
  else
    bodyEvent

/-! ### TEST_SKIP -/

/-- The class `MyTest::TestSkipException` prepends this prefix to its message. -/
def skipExcWhat (msg : String) : String := "   Skipped : " ++ msg

/-- The macro `TEST_SKIP(msg)` (mytest.h lines 805-810) throws a
`TestSkipException` only when force mode is off. -/
def testSkipThrows (force : Bool) : Bool := !force

/-- A body that first issues `TEST_SKIP(msg)` and then continues with
the behaviour `rest`.  Returns the resulting behaviour together with a
ghost flag telling whether the remainder of the body executed. -/
def bodyWithSkipRequest (force : Bool) (msg : String) (rest : BodyBehavior) :
    BodyBehavior × Bool :=
  if testSkipThrows force then (⟨.skipExc (skipExcWhat msg), false, false⟩, false)
  else (rest, true)

/-- C2: for every executed test of a group with registered
BeforeEach/AfterEach hooks, BeforeEach and AfterEach each run exactly
once, whatever the BeforeEach hook and the test body do — including
every way either of them can throw or fail — because the AfterEach call
sits in the `OnScopeLeave` guard that runs on scope exit. -/
theorem beforeEach_afterEach_run_exactly_once (be body : BodyBehavior) :
    (RunTestWithHooks true true be body).2.beforeEachRuns = 1 ∧
    (RunTestWithHooks true true be body).2.afterEachRuns = 1 := by
  cases be with
  | mk beEv beC beE =>
    cases body with
    | mk bEv bC bE =>
      cases beEv <;> cases bEv <;> simp [RunTestWithHooks, classifyRun]

/-- A string with a non-empty prefix glued on is non-empty (used for the
message-default branches of `finalizeOutcome`). -/
theorem isEmpty_append_left (p s : String) (hp : p.data ≠ []) :
    (p ++ s).isEmpty = false := by
  rw [Bool.eq_false_iff]
  intro hem
  have h0 : p ++ s = "" := (String.isEmpty_iff _).mp hem
  have h1 : (p ++ s).data = [] := by rw [h0]
  rw [String.data_append] at h1
  exact hp (List.append_eq_nil.mp h1).1

/-- C3: with no per-test timeout override the default deadline applies,
and a test body that does not complete within it yields
Failed(timeout) — unless the test declared expected-failure, in which
case the recorded outcome is Passed. -/
theorem default_deadline_timeout_failed_unless_expected
    (defaultMs : Int) (completesInMs : Option Int) (bodyEvent : ExecEvent)
    (fullName : String) (expectDeclared hasAE : Bool)
    (h : timesOut completesInMs defaultMs = true) :
    effectiveDeadline none defaultMs = defaultMs ∧
    (RunTestWithHooks false hasAE ⟨.ret, false, false⟩
        ⟨runWrappedTest none defaultMs completesInMs bodyEvent fullName,
         false, expectDeclared⟩).1 =
      if expectDeclared then
        ⟨false, false, timeoutExcWhat fullName⟩
      else
        ⟨true, false, timeoutExcWhat fullName⟩ := by
  have hd : effectiveDeadline none defaultMs = defaultMs := rfl
  refine ⟨hd, ?_⟩
  have hw : runWrappedTest none defaultMs completesInMs bodyEvent fullName =
      .timeoutExc (timeoutExcWhat fullName) := by
    simp [runWrappedTest, hd, h]
  rw [hw]
  have hne : (" Timed out : " ++ fullName).isEmpty = false :=
    isEmpty_append_left " Timed out : " fullName (by decide)
  cases expectDeclared <;>
    simp [RunTestWithHooks, classifyRun, finalizeOutcome, timeoutExcWhat, hne]

/-- Witness for C3 at a concrete input: default deadline 100 ms, body
completing at 250 ms, expected-failure not declared. -/
theorem default_deadline_timeout_witness :
    timesOut (some 250) 100 = true ∧
    (effectiveDeadline none 100 = 100 ∧
     (RunTestWithHooks false true ⟨.ret, false, false⟩
         ⟨runWrappedTest none 100 (some 250) .ret "G:t", false, false⟩).1 =
       if false then ⟨false, false, timeoutExcWhat "G:t"⟩
       else ⟨true, false, timeoutExcWhat "G:t"⟩) :=
  ⟨by decide,
   default_deadline_timeout_failed_unless_expected 100 (some 250) .ret "G:t"
     false true (by decide)⟩

/-- C4: whenever a run of `RunTestWithHooks` ends with the
expected-failure flag set, the recorded failure bit is the inversion of
the classified one: a classified failure is recorded as passed, and the
absence of a classified failure is recorded as failed. -/
theorem expected_failure_inverts_disposition
    (hasBE hasAE : Bool) (be body : BodyBehavior)
    (h : (classifyRun hasBE hasAE be body).2.1 = true) :
    (RunTestWithHooks hasBE hasAE be body).1.failure =
      !(classifyRun hasBE hasAE be body).1.failure := by
  unfold RunTestWithHooks
  cases hc : classifyRun hasBE hasAE be body with
  | mk o rest =>
    cases rest with
    | mk flag tr =>
      have hf : flag = true := by
        have := h
        rw [hc] at this
        exact this
      subst hf
      simp [finalizeOutcome]

/-- Witness for C4: a body that declares expected-failure and then
fails an assertion is recorded as passed. -/
theorem expected_failure_inverts_witness :
    (classifyRun false false ⟨.ret, false, false⟩
        ⟨.assertExc "ASSERT_EQ failed", false, true⟩).2.1 = true ∧
    (RunTestWithHooks false false ⟨.ret, false, false⟩
        ⟨.assertExc "ASSERT_EQ failed", false, true⟩).1.failure =
      !(classifyRun false false ⟨.ret, false, false⟩
          ⟨.assertExc "ASSERT_EQ failed", false, true⟩).1.failure :=
  ⟨by decide,
   expected_failure_inverts_disposition false false ⟨.ret, false, false⟩
     ⟨.assertExc "ASSERT_EQ failed", false, true⟩ (by decide)⟩

/-- C9: with force mode enabled, a skip request inside a test body is a
no-op: the body's remainder executes and the run behaves exactly as if
the skip request were absent; in particular a body that then finishes
normally is not short-circuited to Skipped. -/
theorem force_mode_skip_noop (msg : String) (rest : BodyBehavior)
    (hasBE hasAE : Bool) (be : BodyBehavior)
    (hret : rest.event = .ret) :
    (bodyWithSkipRequest true msg rest).2 = true ∧
    (bodyWithSkipRequest true msg rest).1 = rest ∧
    (RunTestWithHooks hasBE hasAE be
        (bodyWithSkipRequest true msg rest).1).1.skipped =
      (RunTestWithHooks hasBE hasAE be rest).1.skipped ∧
    ((hasBE = false ∨ be.event = .ret) →
      (RunTestWithHooks hasBE hasAE be
          (bodyWithSkipRequest true msg rest).1).1.skipped = false) := by
  have hb : bodyWithSkipRequest true msg rest = (rest, true) := by
    simp [bodyWithSkipRequest, testSkipThrows]
  refine ⟨by rw [hb], by rw [hb], by rw [hb], ?_⟩
  intro hcase
  rw [hb]
  rcases hcase with hbe | hbeRet
  · subst hbe
    simp [RunTestWithHooks, classifyRun, finalizeOutcome, hret]
  · rw [show (rest, true).1 = rest from rfl]
    cases hasBE <;>
      simp [RunTestWithHooks, classifyRun, finalizeOutcome, hret, hbeRet]

/-- Witness for C9: force mode on, a skip request followed by a
normally-returning body yields a non-skipped run. -/
theorem force_mode_skip_noop_witness :
    (⟨.ret, false, false⟩ : BodyBehavior).event = .ret ∧
    ((bodyWithSkipRequest true "msg" ⟨.ret, false, false⟩).2 = true ∧
     (bodyWithSkipRequest true "msg" ⟨.ret, false, false⟩).1 =
       ⟨.ret, false, false⟩ ∧
     (RunTestWithHooks true true ⟨.ret, false, false⟩
         (bodyWithSkipRequest true "msg" ⟨.ret, false, false⟩).1).1.skipped =
       (RunTestWithHooks true true ⟨.ret, false, false⟩
           ⟨.ret, false, false⟩).1.skipped ∧
     ((true = false ∨ (⟨.ret, false, false⟩ : BodyBehavior).event = .ret) →
       (RunTestWithHooks true true ⟨.ret, false, false⟩
           (bodyWithSkipRequest true "msg" ⟨.ret, false, false⟩).1).1.skipped =
         false)) :=
  ⟨rfl,
   force_mode_skip_noop "msg" ⟨.ret, false, false⟩ true true
     ⟨.ret, false, false⟩ rfl⟩

/-! ### Process isolation: parent-side classification -/

/-- How the child of `RunTestInProcess` terminated, as seen by the
parent through `waitpid`: a normal exit with `WEXITSTATUS`, death by a
signal with `WTERMSIG` (and the name `strsignal` resolves, if any), or
any other status. -/
inductive ChildStatus where
  | exited (code : Nat)
  | signaled (sig : Nat) (sigName : Option String)
  | unknown
deriving DecidableEq, Repr

/-- The exit code the child computes from its `RunTestWithHooks` result
(mytest.h line 440): `_exit(skipped ? 2 : failure ? 1 : 0)`. -/
def childExitCode (failure skipped : Bool) : Nat :=
  if skipped then 2 else if failure then 1 else 0

/-- The message attached on the signal-termination path of
`RunTestInProcess` (mytest.h lines 538-541). -/
def signalMessage (sig : Nat) (sigName : Option String) : String :=
  "Terminated by signal " ++ toString sig ++
    (match sigName with
     | some n => " (" ++ n ++ ")"
     | none => "")

/-- The parent-side classification of a completed child in
`RunTestInProcess` (mytest.h lines 510-548): deadline kill, `waitpid`
failure, normal exit (0 → passed, 2 → skipped, other → failed, with the
captured pipe output as message where the code attaches it), death by
signal, or unknown status. -/
def classifyChild (timedOut : Bool) (waitpidFailed : Bool)
    (status : ChildStatus) (captured : String) : RunOutcome :=
  if timedOut then ⟨true, false, "Test timed out."⟩
  else if waitpidFailed then ⟨true, false, "waitpid failed."⟩
  else
    match status with
    | .exited code =>
        if code = 2 then
          ⟨false, true, if captured.isEmpty then "Skipped." else captured⟩
        else if code ≠ 0 then
          ⟨true, false,
           if captured.isEmpty then "See console output." else captured⟩
        else
          ⟨false, false, if captured.isEmpty then "" else captured⟩
    | .signaled sig sigName => ⟨true, false, signalMessage sig sigName⟩
    | .unknown => ⟨true, false, "Unknown child status."⟩

/-- C5: for a process-isolated test whose child exits normally, exit
code 0 yields Passed with the non-empty captured output attached as the
message, code 2 yields Skipped with the captured output as the skip
message, any other code yields Failed with the captured output as the
message; a signal-terminated child yields Failed with the signal named
in the message. -/
theorem child_exit_classification (captured : String) (code sig : Nat)
    (sigName : String)
    (hcap : captured.isEmpty = false) (h0 : code ≠ 0) (h2 : code ≠ 2) :
    classifyChild false false (.exited 0) captured = ⟨false, false, captured⟩ ∧
    classifyChild false false (.exited 2) captured = ⟨false, true, captured⟩ ∧
    classifyChild false false (.exited code) captured =
      ⟨true, false, captured⟩ ∧
    classifyChild false false (.signaled sig (some sigName)) captured =
      ⟨true, false,
       "Terminated by signal " ++ toString sig ++ (" (" ++ sigName ++ ")")⟩ := by
  refine ⟨?_, ?_, ?_, ?_⟩
  · simp [classifyChild, hcap]
  · simp [classifyChild, hcap]
  · simp [classifyChild, hcap, h0, h2]
  · simp [classifyChild, signalMessage]

/-- Witness for C5: captured output `"out"`, failing exit code 1,
signal 11 resolved as `"Segmentation fault"`. -/
theorem child_exit_classification_witness :
    ("out" : String).isEmpty = false ∧ (1 : Nat) ≠ 0 ∧ (1 : Nat) ≠ 2 ∧
    (classifyChild false false (.exited 0) "out" = ⟨false, false, "out"⟩ ∧
     classifyChild false false (.exited 2) "out" = ⟨false, true, "out"⟩ ∧
     classifyChild false false (.exited 1) "out" = ⟨true, false, "out"⟩ ∧
     classifyChild false false (.signaled 11 (some "Segmentation fault"))
         "out" =
       ⟨true, false,
        "Terminated by signal " ++ toString (11 : Nat) ++
          (" (" ++ "Segmentation fault" ++ ")")⟩) :=
  ⟨by decide, by decide, by decide,
   child_exit_classification "out" 1 11 "Segmentation fault" (by decide)
     (by decide) (by decide)⟩

/-! ### The scheduling loop of MyTest::RunAllTests

The loop is embedded over the outcome each `RunTest` invocation
produces: test bodies and hooks are arbitrary C++ code, so each
registered test and each suite hook is paired with the
`(failure, skipped, message)` tuple its `RunTest` call returns. -/

/-- Unanchored substring search: `std::regex_search(name, pattern)` for
a pattern string without regex metacharacters (the claims are about
literal patterns, for which `regex_search` is exactly substring
search). -/
def infixSearch (pat : List Char) : List Char → Bool
  | [] => pat.isEmpty
  | c :: t => pat.isPrefixOf (c :: t) || infixSearch pat t

/-- Matching `std::regex_search(name, pattern)` on a literal pattern. -/
def containsPattern (name pat : String) : Bool :=
  infixSearch pat.data name.data

/-- The `should_run` lambda of `MyTest::RunAllTests` (mytest.h lines
284-293): any exclude-pattern match rejects the test; otherwise an empty
include list accepts everything, else some include pattern must match. -/
def should_run (excludes includes : List String) (name : String) : Bool :=
  if excludes.any (fun p => containsPattern name p) then false
  else if includes.isEmpty then true
  else includes.any (fun p => containsPattern name p)

/-- Computes `name.substr(0, name.find(':'))` — the group part of a full
`"group:name"` identifier (the whole string when there is no colon). -/
def groupNameOf (name : String) : String :=
  String.mk (name.data.takeWhile (fun c => c ≠ ':'))

/-- First-occurrence deduplication, matching how `group_order` is built
(a group is appended only when first seen). -/
def dedupFirst : List String → List String
  | [] => []
  | x :: t => x :: (dedupFirst t).filter (fun y => y ≠ x)

/-- A registered test together with the `(failure, skipped, message)`
tuple its `RunTest` invocation returns. -/
structure SchedTest where
  name : String
  outcome : RunOutcome
deriving DecidableEq, Repr

/-- The scheduler's configuration: exclude/include patterns (literal)
and, per group, the outcome of the BeforeAll / AfterAll hook's `RunTest`
invocation when such a hook is registered. -/
structure SchedConfig where
  excludePatterns : List String
  includePatterns : List String
  beforeAll : List (String × RunOutcome)
  afterAll : List (String × RunOutcome)
deriving DecidableEq, Repr

/-- Lookup in the hook registration maps (`test_before_` /
`test_after_`). -/
def lookupHook (hooks : List (String × RunOutcome)) (g : String) :
    Option RunOutcome :=
  (hooks.find? (fun e => e.1 = g)).map (fun e => e.2)

/-- The record `mytest::TestResult` — suite, name, failure flag, skipped flag,
message. -/
structure TestResult where
  suite : String
  name : String
  failure : Bool
  skipped : Bool
  message : String
deriving DecidableEq, Repr

/-- Strip trailing `'\n'` / `'\r'` characters, as done before a
`TestResult` message is stored (mytest.h lines 609-612). -/
def trimNewlines (s : String) : String :=
  String.mk
    ((s.data.reverse.dropWhile (fun c => c = '\n' || c = '\r')).reverse)

/-- The `TestResult` appended for a finished test (mytest.h lines
601-614): only created when the name contains a colon; the suite/name
split is at the first colon. -/
def mkTestResult (name : String) (o : RunOutcome) : Option TestResult :=
  if name.data.any (fun c => c = ':') then
    some
      { suite := String.mk (name.data.takeWhile (fun c => c ≠ ':')),
        name := String.mk ((name.data.dropWhile (fun c => c ≠ ':')).drop 1),
        failure := o.failure, skipped := o.skipped,
        message := trimNewlines o.message }
  else none

/-- The scheduler's accumulated state: the counters of
`MyTest::RunAllTests`, the result list, and ghost trace fields recording
which tests were executed, which groups' AfterAll hook ran, which groups
were marked skipped by a skipped BeforeAll, and how many executed tests
failed (the last one separates test failures from AfterAll-hook
failures inside `num_failure`). -/
structure RunState where
  numFailure : Nat
  numSkipped : Nat
  numSuccess : Nat
  numRan : Nat
  results : List TestResult
  executedTests : List String
  afterAllRan : List String
  groupSkipped : List String
  numFailedTests : Nat
deriving DecidableEq, Repr

def initialRunState : RunState :=
  ⟨0, 0, 0, 0, [], [], [], [], 0⟩

/-- One iteration of the per-group test loop (mytest.h lines 587-617):
run the test, bump the counters (`failure` takes precedence over
`skipped`), and append a `TestResult` when the name has a colon. -/
def runTestStep (st : RunState) (t : SchedTest) : RunState :=
  let o := t.outcome
  let st' : RunState :=
    { st with
      executedTests := st.executedTests ++ [t.name],
      numFailure := st.numFailure + (if o.failure then 1 else 0),
      numFailedTests := st.numFailedTests + (if o.failure then 1 else 0),
      numSkipped :=
        st.numSkipped + (if !o.failure && o.skipped then 1 else 0),
      numSuccess :=
        st.numSuccess + (if !o.failure && !o.skipped then 1 else 0),
      numRan := st.numRan + 1 }
  match mkTestResult t.name o with
  | some r => { st' with results := st'.results ++ [r] }
  | none => st'

/-- The AfterAll step (mytest.h lines 619-625): when an AfterAll hook is
registered it runs, and its failure increments `num_failure`. -/
def runGroupAfter (cfg : SchedConfig) (g : String) (st : RunState) :
    RunState :=
  match lookupHook cfg.afterAll g with
  | some o =>
      { st with
        afterAllRan := st.afterAllRan ++ [g],
        numFailure := st.numFailure + (if o.failure then 1 else 0) }
  | none => st

/-- Tests of one group, in registration order (how
`categorized_tests[group_name]` is populated from the filtered list). -/
def testsOfGroup (ts : List SchedTest) (g : String) : List SchedTest :=
  ts.filter (fun t => groupNameOf t.name = g)

/-- The body of one group iteration after the BeforeAll gate: all the
group's tests, then the AfterAll hook. -/
def runGroupTests (cfg : SchedConfig) (ts : List SchedTest) (g : String)
    (st : RunState) : RunState :=
  runGroupAfter cfg g ((testsOfGroup ts g).foldl runTestStep st)

/-- One iteration of the group loop (mytest.h lines 569-628): if a
BeforeAll hook is registered and its outcome is skipped, the group is
marked skipped and the loop advances with `continue` — no test runs and
the AfterAll hook does not run.  Otherwise the tests and the AfterAll
step run (a failed BeforeAll only feeds the console-side
`group_failure`). -/
def runGroup (cfg : SchedConfig) (ts : List SchedTest) (g : String)
    (st : RunState) : RunState :=
  match lookupHook cfg.beforeAll g with
  | some o =>
      if o.skipped then { st with groupSkipped := st.groupSkipped ++ [g] }
      else runGroupTests cfg ts g st
  | none => runGroupTests cfg ts g st

/-- The body of `MyTest::RunAllTests` after CLI parsing: filter the registered tests
with `should_run`, group them preserving first-registration order of
groups, run every group, and return the final state together with the
exit code `num_failure > 0 ? 1 : 0` (mytest.h line 637). -/
def runAllTests (cfg : SchedConfig) (tests : List SchedTest) :
    RunState × Nat :=
  let ts := tests.filter
    (fun t => should_run cfg.excludePatterns cfg.includePatterns t.name)
  let st := (dedupFirst (ts.map (fun t => groupNameOf t.name))).foldl
    (fun st g => runGroup cfg ts g st) initialRunState
  (st, if st.numFailure > 0 then 1 else 0)

/-- C1: when a group's BeforeAll hook yields a Skipped outcome, the
group iteration marks the group skipped and does nothing else: no test
of the group is executed, the AfterAll hook does not run, no counter or
result changes, and control advances to the next group. -/
theorem beforeAll_skip_suppresses_group (cfg : SchedConfig)
    (ts : List SchedTest) (g : String) (st : RunState) (o : RunOutcome)
    (hhook : lookupHook cfg.beforeAll g = some o)
    (hskip : o.skipped = true) :
    runGroup cfg ts g st =
      { st with groupSkipped := st.groupSkipped ++ [g] } := by
  simp [runGroup, hhook, hskip]

/-- Witness for C1: a group `G` with one registered test and a skipped
BeforeAll outcome. -/
theorem beforeAll_skip_suppresses_group_witness :
    lookupHook [("G", (⟨false, true, "   Skipped : setup"⟩ : RunOutcome))]
        "G" = some ⟨false, true, "   Skipped : setup"⟩ ∧
    (⟨false, true, "   Skipped : setup"⟩ : RunOutcome).skipped = true ∧
    runGroup
        ⟨[], [], [("G", ⟨false, true, "   Skipped : setup"⟩)],
         [("G", ⟨true, false, "boom"⟩)]⟩
        [⟨"G:t1", ⟨true, false, "x"⟩⟩] "G" initialRunState =
      { initialRunState with groupSkipped := ["G"] } :=
  ⟨by decide, by decide,
   beforeAll_skip_suppresses_group
     ⟨[], [], [("G", ⟨false, true, "   Skipped : setup"⟩)],
      [("G", ⟨true, false, "boom"⟩)]⟩
     [⟨"G:t1", ⟨true, false, "x"⟩⟩] "G" initialRunState
     ⟨false, true, "   Skipped : setup"⟩ (by decide) (by decide)⟩

/-! ### C8: unanchored substring exclusion -/

theorem isPrefixOf_self_append (l t : List Char) :
    l.isPrefixOf (l ++ t) = true := by
  induction l with
  | nil => simp [List.isPrefixOf]
  | cons a as ih => simp [List.isPrefixOf, ih]

/-- The substring search finds a planted occurrence anywhere in the
string, including mid-token. -/
theorem infixSearch_plant (pat pre post : List Char) :
    infixSearch pat (pre ++ pat ++ post) = true := by
  induction pre with
  | nil =>
    simp only [List.nil_append]
    cases hpp : pat ++ post with
    | nil =>
      have hp : pat = [] := (List.append_eq_nil.mp hpp).1
      subst hp
      rfl
    | cons c t =>
      have hpre : pat.isPrefixOf (c :: t) = true := by
        rw [← hpp]; exact isPrefixOf_self_append pat post
      simp [infixSearch, hpre]
  | cons a pre ih =>
    have ih2 : infixSearch pat (pre ++ (pat ++ post)) = true := by
      rw [← List.append_assoc]; exact ih
    simp only [List.cons_append]
    simp [infixSearch, ih2]

/-- Every name in `executedTests` after one `runTestStep` is an old one
or the stepped test's name. -/
theorem runTestStep_executedTests (st : RunState) (t : SchedTest) :
    (runTestStep st t).executedTests = st.executedTests ++ [t.name] := by
  unfold runTestStep
  cases hmk : mkTestResult t.name t.outcome <;> simp [hmk]

theorem executed_mem_runTestStep (st : RunState) (t : SchedTest)
    (x : String) (hx : x ∈ (runTestStep st t).executedTests) :
    x ∈ st.executedTests ∨ x = t.name := by
  rw [runTestStep_executedTests] at hx
  simpa using hx

/-- Fold version of `executed_mem_runTestStep`. -/
theorem executed_mem_foldTests (ts : List SchedTest) (st : RunState)
    (x : String) (hx : x ∈ (ts.foldl runTestStep st).executedTests) :
    x ∈ st.executedTests ∨ ∃ t ∈ ts, x = t.name := by
  induction ts generalizing st with
  | nil => exact Or.inl hx
  | cons t ts ih =>
    rcases ih (runTestStep st t) (by simpa using hx) with h | ⟨u, hu, he⟩
    · rcases executed_mem_runTestStep st t x h with h1 | h1
      · exact Or.inl h1
      · exact Or.inr ⟨t, by simp, h1⟩
    · exact Or.inr ⟨u, by simp [hu], he⟩

theorem executedTests_runGroupAfter (cfg : SchedConfig) (g : String)
    (st : RunState) :
    (runGroupAfter cfg g st).executedTests = st.executedTests := by
  unfold runGroupAfter
  cases lookupHook cfg.afterAll g <;> rfl

/-- Every name executed by one group iteration is an old one or the
name of some test in the filtered list. -/
theorem executed_mem_runGroup (cfg : SchedConfig) (ts : List SchedTest)
    (g : String) (st : RunState) (x : String)
    (hx : x ∈ (runGroup cfg ts g st).executedTests) :
    x ∈ st.executedTests ∨ ∃ t ∈ ts, x = t.name := by
  unfold runGroup at hx
  have hgt : x ∈ (runGroupTests cfg ts g st).executedTests →
      x ∈ st.executedTests ∨ ∃ t ∈ ts, x = t.name := by
    intro hmem
    unfold runGroupTests at hmem
    rw [executedTests_runGroupAfter] at hmem
    rcases executed_mem_foldTests _ _ _ hmem with h | ⟨u, hu, he⟩
    · exact Or.inl h
    · exact Or.inr ⟨u, List.mem_of_mem_filter hu, he⟩
  cases hh : lookupHook cfg.beforeAll g with
  | none =>
    rw [hh] at hx
    exact hgt hx
  | some o =>
    rw [hh] at hx
    by_cases hs : o.skipped = true
    · simp only [hs, if_true] at hx
      exact Or.inl hx
    · rw [Bool.not_eq_true] at hs
      simp only [hs, Bool.false_eq_true, if_false] at hx
      exact hgt hx

/-- Every name executed by the whole run is the name of a test that
passed the `should_run` filter. -/
theorem executed_mem_runAll (cfg : SchedConfig) (tests : List SchedTest)
    (x : String) (hx : x ∈ (runAllTests cfg tests).1.executedTests) :
    ∃ t ∈ tests.filter
        (fun t => should_run cfg.excludePatterns cfg.includePatterns t.name),
      x = t.name := by
  unfold runAllTests at hx
  simp only at hx
  generalize hts : tests.filter
    (fun t => should_run cfg.excludePatterns cfg.includePatterns t.name) =
    ts at hx ⊢
  generalize hgs : dedupFirst (ts.map (fun t => groupNameOf t.name)) = gs
    at hx
  clear hts hgs
  have main : ∀ (gs : List String) (st : RunState),
      x ∈ (gs.foldl (fun st g => runGroup cfg ts g st) st).executedTests →
      x ∈ st.executedTests ∨ ∃ t ∈ ts, x = t.name := by
    intro gs
    induction gs with
    | nil => intro st h; exact Or.inl h
    | cons g gs ih =>
      intro st h
      rcases ih (runGroup cfg ts g st) (by simpa using h) with h1 | h1
      · exact executed_mem_runGroup cfg ts g st x h1
      · exact Or.inr h1
  rcases main gs initialRunState hx with h | h
  · simp [initialRunState] at h
  · exact h

/-- C8: exclusion is unanchored substring search on the full
`"group:name"` identifier: for a literal exclude pattern, every
registered test whose identifier contains the pattern anywhere — even
mid-token — is excluded from the run (its `RunTest` is never invoked). -/
theorem exclude_pattern_substring_excludes (cfg : SchedConfig)
    (tests : List SchedTest) (pat : String) (t : SchedTest)
    (pre post : List Char)
    (hpat : pat ∈ cfg.excludePatterns) (_hmem : t ∈ tests)
    (hname : t.name.data = pre ++ pat.data ++ post) :
    t.name ∉ (runAllTests cfg tests).1.executedTests := by
  intro hx
  obtain ⟨u, hu, he⟩ := executed_mem_runAll cfg tests t.name hx
  have hcontains : containsPattern t.name pat = true := by
    unfold containsPattern
    rw [hname]
    exact infixSearch_plant pat.data pre post
  have hsr : should_run cfg.excludePatterns cfg.includePatterns t.name =
      false := by
    unfold should_run
    rw [if_pos]
    exact List.any_eq_true.mpr ⟨pat, hpat, hcontains⟩
  have hu2 := (List.mem_filter.mp hu).2
  rw [← he, hsr] at hu2
  exact Bool.false_ne_true hu2

/-- Witness for C8: excluding `"Foo"` also excludes the test
`"MyFood:test"`, where `"Foo"` occurs mid-token. -/
theorem exclude_pattern_substring_excludes_witness :
    ("Foo" : String) ∈ ["Foo"] ∧
    (⟨"MyFood:test", ⟨false, false, ""⟩⟩ : SchedTest) ∈
      [(⟨"MyFood:test", ⟨false, false, ""⟩⟩ : SchedTest)] ∧
    ("MyFood:test" : String).data =
      ("My" : String).data ++ ("Foo" : String).data ++
        ("d:test" : String).data ∧
    ("MyFood:test" : String) ∉
      (runAllTests ⟨["Foo"], [], [], []⟩
        [⟨"MyFood:test", ⟨false, false, ""⟩⟩]).1.executedTests :=
  ⟨by decide, by decide, by decide,
   exclude_pattern_substring_excludes ⟨["Foo"], [], [], []⟩
     [⟨"MyFood:test", ⟨false, false, ""⟩⟩] "Foo"
     ⟨"MyFood:test", ⟨false, false, ""⟩⟩
     ("My" : String).data ("d:test" : String).data
     (by decide) (by decide) (by decide)⟩

/-! ### C6: exit code accounting -/

/-- Number of groups in `gs` whose registered AfterAll hook failed. -/
def afterAllFailCount (cfg : SchedConfig) (gs : List String) : Nat :=
  gs.countP (fun g =>
    match lookupHook cfg.afterAll g with
    | some o => o.failure
    | none => false)

/-- The decomposition of the scheduler's `num_failure` counter: it is
the number of failed executed tests plus the number of executed AfterAll
hooks that failed. -/
def failureAccounting (cfg : SchedConfig) (st : RunState) : Prop :=
  st.numFailure = st.numFailedTests + afterAllFailCount cfg st.afterAllRan

theorem runTestStep_numFailure (st : RunState) (t : SchedTest) :
    (runTestStep st t).numFailure =
      st.numFailure + (if t.outcome.failure then 1 else 0) := by
  unfold runTestStep
  cases hmk : mkTestResult t.name t.outcome <;> simp [hmk]

theorem runTestStep_numFailedTests (st : RunState) (t : SchedTest) :
    (runTestStep st t).numFailedTests =
      st.numFailedTests + (if t.outcome.failure then 1 else 0) := by
  unfold runTestStep
  cases hmk : mkTestResult t.name t.outcome <;> simp [hmk]

theorem runTestStep_afterAllRan (st : RunState) (t : SchedTest) :
    (runTestStep st t).afterAllRan = st.afterAllRan := by
  unfold runTestStep
  cases hmk : mkTestResult t.name t.outcome <;> simp [hmk]

theorem runTestStep_accounting (cfg : SchedConfig) (st : RunState)
    (t : SchedTest) (h : failureAccounting cfg st) :
    failureAccounting cfg (runTestStep st t) := by
  unfold failureAccounting at h ⊢
  rw [runTestStep_numFailure, runTestStep_numFailedTests,
    runTestStep_afterAllRan, h]
  omega

theorem foldTests_accounting (cfg : SchedConfig) (ts : List SchedTest)
    (st : RunState) (h : failureAccounting cfg st) :
    failureAccounting cfg (ts.foldl runTestStep st) := by
  induction ts generalizing st with
  | nil => exact h
  | cons t ts ih =>
    exact ih (runTestStep st t) (runTestStep_accounting cfg st t h)

theorem runGroupAfter_accounting (cfg : SchedConfig) (g : String)
    (st : RunState) (h : failureAccounting cfg st) :
    failureAccounting cfg (runGroupAfter cfg g st) := by
  unfold failureAccounting at h ⊢
  unfold runGroupAfter
  cases hh : lookupHook cfg.afterAll g with
  | none => exact h
  | some o =>
    have hc : afterAllFailCount cfg (st.afterAllRan ++ [g]) =
        afterAllFailCount cfg st.afterAllRan +
          (if o.failure then 1 else 0) := by
      unfold afterAllFailCount
      rw [List.countP_append]
      simp [List.countP_cons, List.countP_nil, hh]
    simp only
    rw [hc, h]
    omega

theorem runGroup_accounting (cfg : SchedConfig) (ts : List SchedTest)
    (g : String) (st : RunState) (h : failureAccounting cfg st) :
    failureAccounting cfg (runGroup cfg ts g st) := by
  have hgt : failureAccounting cfg (runGroupTests cfg ts g st) :=
    runGroupAfter_accounting cfg g _ (foldTests_accounting cfg _ st h)
  unfold runGroup
  cases hh : lookupHook cfg.beforeAll g with
  | none => exact hgt
  | some o =>
    by_cases hs : o.skipped = true
    · simp only [hs, if_true]
      unfold failureAccounting at h ⊢
      simpa using h
    · rw [Bool.not_eq_true] at hs
      simp only [hs, Bool.false_eq_true, if_false]
      exact hgt

theorem runAllTests_accounting (cfg : SchedConfig)
    (tests : List SchedTest) :
    failureAccounting cfg (runAllTests cfg tests).1 := by
  have main : ∀ (ts : List SchedTest) (gs : List String) (st : RunState),
      failureAccounting cfg st →
      failureAccounting cfg
        (gs.foldl (fun st g => runGroup cfg ts g st) st) := by
    intro ts gs
    induction gs with
    | nil => intro st h; exact h
    | cons g gs ih =>
      intro st h
      exact ih (runGroup cfg ts g st) (runGroup_accounting cfg ts g st h)
  have hinit : failureAccounting cfg initialRunState := by
    unfold failureAccounting afterAllFailCount initialRunState
    simp
  exact main _ _ initialRunState hinit

/-- C6 counterexample: a run consisting of one passing test whose
group has a failing AfterAll hook has zero failed tests (no failed
`TestResult`, failed-test counter zero) and yet `RunAllTests` returns
exit code 1 — refuting "exit code 0 if zero tests failed". -/
theorem exit_code_zero_failed_tests_counterexample :
    (runAllTests ⟨[], [], [], [("G", ⟨true, false, "AfterAll failed"⟩)]⟩
        [⟨"G:t1", ⟨false, false, ""⟩⟩]).1.numFailedTests = 0 ∧
    (runAllTests ⟨[], [], [], [("G", ⟨true, false, "AfterAll failed"⟩)]⟩
        [⟨"G:t1", ⟨false, false, ""⟩⟩]).1.results.countP
      (fun r => r.failure) = 0 ∧
    (runAllTests ⟨[], [], [], [("G", ⟨true, false, "AfterAll failed"⟩)]⟩
        [⟨"G:t1", ⟨false, false, ""⟩⟩]).2 = 1 := by
  decide

/-- C6 amended: `RunAllTests` returns exit code 0 when its failure
counter is zero and 1 otherwise, where the counter is the number of
failed tests plus the number of executed AfterAll hooks that failed —
so a failing AfterAll hook alone also yields exit code 1. -/
theorem exit_code_zero_iff_no_failure_count (cfg : SchedConfig)
    (tests : List SchedTest) :
    (runAllTests cfg tests).2 =
      if 0 < (runAllTests cfg tests).1.numFailedTests +
          afterAllFailCount cfg (runAllTests cfg tests).1.afterAllRan
      then 1 else 0 := by
  have h := runAllTests_accounting cfg tests
  unfold failureAccounting at h
  have h2 : (runAllTests cfg tests).2 =
      if 0 < (runAllTests cfg tests).1.numFailure then 1 else 0 := rfl
  rw [h2, h]

/-! ### shared_memory::SlotArray (test/multi/shared_trace.h) -/

/-- The shared storage of `SlotArray<T, Capacity>`
(`SlotArrayStorage`): the atomic next-free counter and the entry array.
`Region::Create` zero-initializes the mapping, so a fresh storage has
counter 0 and default-valued entries.  The counter is a C++ `int`; the
claims stay far below its overflow, which is therefore not modelled. -/
structure SlotStorage (T : Type) where
  next_slot : Int
  entries : List T
deriving Repr

/-- A freshly created capacity-`N` slot array. -/
def freshStorage (T : Type) (N : Nat) (z : T) : SlotStorage T :=
  ⟨0, List.replicate N z⟩

/-- The method `SlotArray::ReserveSlotInternal` (shared_trace.h lines 257-263):
`next_slot.fetch_add(1)` — the increment happens unconditionally — then
the previous value is the assigned slot, and a capacity-exceeded error
is thrown if that value is not below the capacity. -/
def ReserveSlotInternal (T : Type) (N : Nat) (s : SlotStorage T) :
    Except String Int × SlotStorage T :=
  let slot := s.next_slot
  let s' : SlotStorage T := { s with next_slot := slot + 1 }
  if slot ≥ (N : Int) then (.error "SlotArray capacity exceeded", s')
  else (.ok slot, s')

/-- The record `SlotArray::Snapshot`. -/
structure Snapshot (T : Type) where
  count : Int
  entries : List T
deriving Repr

/-- The method `SlotArray::Collect` (shared_trace.h lines 210-221): read the
counter, clamp it to the capacity, and copy that many entries. -/
def Collect (T : Type) (N : Nat) (s : SlotStorage T) : Snapshot T :=
  let c0 := s.next_slot
  let c := if c0 > (N : Int) then (N : Int) else c0
  ⟨c, s.entries.take c.toNat⟩

/-- Performs `k` successive `ReserveSlot` calls, collecting each call's result
and threading the shared state. -/
def reserveCalls (T : Type) (N : Nat) :
    Nat → SlotStorage T → List (Except String Int) × SlotStorage T
  | 0, s => ([], s)
  | Nat.succ k, s =>
    let r := ReserveSlotInternal T N s
    let rest := reserveCalls T N k r.2
    (r.1 :: rest.1, rest.2)

/-- Successive reservations starting at counter `m` with room for `k`
more return the indices `m, m+1, ..., m+k-1` and leave the counter at
`m + k`. -/
theorem reserveCalls_ok (T : Type) (N k m : Nat) (s : SlotStorage T)
    (hm : s.next_slot = (m : Int)) (hk : m + k ≤ N) :
    reserveCalls T N k s =
      ((List.range' m k).map (fun i => Except.ok ((i : Nat) : Int)),
       { s with next_slot := ((m + k : Nat) : Int) }) := by
  induction k generalizing s m with
  | zero =>
    cases s with
    | mk ns es =>
      simp at hm
      simp [reserveCalls, List.range', hm]
  | succ k ih =>
    have hlt : (m : Int) < (N : Int) := by
      have : m < N := by omega
      exact_mod_cast this
    have hstep : ReserveSlotInternal T N s =
        (.ok (m : Int), { s with next_slot := ((m + 1 : Nat) : Int) }) := by
      unfold ReserveSlotInternal
      rw [hm]
      rw [if_neg (by omega)]
      push_cast
      ring_nf
    have hrest := ih (m + 1) { s with next_slot := ((m + 1 : Nat) : Int) }
      rfl (by omega)
    show (let r := ReserveSlotInternal T N s
          let rest := reserveCalls T N k r.2
          (r.1 :: rest.1, rest.2)) = _
    rw [hstep]
    simp only
    rw [hrest]
    have harith : m + 1 + k = m + (k + 1) := by omega
    simp [List.range', harith]

/-- Running `Collect` on a storage whose counter is a value `k ≤ N` reports
exactly `k` and takes `k` entries. -/
theorem Collect_of_le (T : Type) (N : Nat) (s : SlotStorage T) (k : Nat)
    (hns : s.next_slot = (k : Int)) (hk : k ≤ N) :
    Collect T N s = ⟨(k : Int), s.entries.take k⟩ := by
  unfold Collect
  rw [hns]
  have h2 : ¬ ((N : Int) < (k : Int)) := by omega
  simp [h2]

/-- C7: on a fresh capacity-`N` slot array, `k ≤ N` successive
`ReserveSlot` calls all succeed and return the assigned indices
`0 .. k-1` (each call returning the previous counter value); `Collect`
after exactly `k` reservations reports count `k` and returns `k`
entries; and when `k = N`, the `(N+1)`-th call fails with the
capacity-exceeded error. -/
theorem slotArray_reserve_collect (T : Type) (N k : Nat) (z : T)
    (hk : k ≤ N) :
    (reserveCalls T N k (freshStorage T N z)).1 =
      (List.range k).map (fun i => Except.ok ((i : Nat) : Int)) ∧
    (Collect T N (reserveCalls T N k (freshStorage T N z)).2).count =
      (k : Int) ∧
    (Collect T N
        (reserveCalls T N k (freshStorage T N z)).2).entries.length = k ∧
    (k = N →
      (ReserveSlotInternal T N
          (reserveCalls T N k (freshStorage T N z)).2).1 =
        .error "SlotArray capacity exceeded") := by
  have h := reserveCalls_ok T N k 0 (freshStorage T N z) rfl (by omega)
  rw [h]
  have hcol := Collect_of_le T N
    { freshStorage T N z with next_slot := ((0 + k : Nat) : Int) } k
    (by simp) hk
  refine ⟨?_, ?_, ?_, ?_⟩
  · rw [List.range_eq_range']
  · rw [hcol]
  · rw [hcol]
    simp only [freshStorage]
    simp [List.length_take, Nat.min_eq_left hk]
  · intro hkN
    subst hkN
    simp only [ReserveSlotInternal]
    rw [if_pos (by simp)]

/-- Witness for C7: a fresh capacity-3 array of naturals; three
reservations return 0, 1, 2, `Collect` reports 3 entries, and the
fourth call fails. -/
theorem slotArray_reserve_collect_witness :
    3 ≤ 3 ∧
    ((reserveCalls Nat 3 3 (freshStorage Nat 3 0)).1 =
       (List.range 3).map (fun i => Except.ok ((i : Nat) : Int)) ∧
     (Collect Nat 3 (reserveCalls Nat 3 3 (freshStorage Nat 3 0)).2).count =
       ((3 : Nat) : Int) ∧
     (Collect Nat 3
         (reserveCalls Nat 3 3 (freshStorage Nat 3 0)).2).entries.length =
       3 ∧
     (3 = 3 →
       (ReserveSlotInternal Nat 3
           (reserveCalls Nat 3 3 (freshStorage Nat 3 0)).2).1 =
         .error "SlotArray capacity exceeded")) :=
  ⟨by decide, slotArray_reserve_collect Nat 3 3 0 (by decide)⟩

/-- C10: on a storage whose counter has reached (or passed) the
capacity, a further reserve call fails with the capacity-exceeded error
but still increments the shared next-free counter before the throw —
the failed call mutates shared state and the counter grows beyond `N` —
and a subsequent `Collect` reports a count clamped to `N`. -/
theorem slotArray_full_reserve_still_increments (T : Type) (N : Nat)
    (s : SlotStorage T) (h : (N : Int) ≤ s.next_slot) :
    (ReserveSlotInternal T N s).1 = .error "SlotArray capacity exceeded" ∧
    (ReserveSlotInternal T N s).2.next_slot = s.next_slot + 1 ∧
    (Collect T N (ReserveSlotInternal T N s).2).count = (N : Int) := by
  simp only [ReserveSlotInternal]
  rw [if_pos h]
  refine ⟨rfl, rfl, ?_⟩
  have h2 : (N : Int) < s.next_slot + 1 := by omega
  simp [Collect, h2]

/-- Witness for C10: a capacity-2 array whose counter already sits at
2; the failed third reservation bumps the counter to 3 while `Collect`
still reports 2. -/
theorem slotArray_full_reserve_still_increments_witness :
    ((2 : Nat) : Int) ≤ (⟨2, [5, 7]⟩ : SlotStorage Nat).next_slot ∧
    ((ReserveSlotInternal Nat 2 ⟨2, [5, 7]⟩).1 =
       .error "SlotArray capacity exceeded" ∧
     (ReserveSlotInternal Nat 2 ⟨2, [5, 7]⟩).2.next_slot =
       (⟨2, [5, 7]⟩ : SlotStorage Nat).next_slot + 1 ∧
     (Collect Nat 2 (ReserveSlotInternal Nat 2 ⟨2, [5, 7]⟩).2).count =
       ((2 : Nat) : Int)) :=
  ⟨by decide,
   slotArray_full_reserve_still_increments Nat 2 ⟨2, [5, 7]⟩ (by decide)⟩

end MyTestSpec
